import Mathlib

/-!
# Verification of the elysia-broadcast subscription registry and stream encoder

A shallow embedding of the `BroadcastManager` class (src/manager.ts), the
SSE stream listener (src/stream.ts) and the plugin wiring (src/plugin.ts)
of the elysia-broadcast package, together with theorems settling the
specification claims about them.

Modelling conventions:
* A JS `Map<string, Set<callback>>` becomes an association list
  `List (String × List Callback)` whose operations mirror the JS semantics:
  `Map.set` on a fresh key appends at the end, `Set.add` appends a missing
  element at the end and is a no-op on a present one, iteration follows
  insertion order.
* A callback is identified by a `Nat` (JS compares functions by identity).
* "Invoking the listeners" is embedded as the pure function `broadcast`
  returning the list of (callback, event) invocations in iteration order;
  the registry map is not touched by a publish, exactly as in the source.
* JS template-literal string conversion is embedded per value shape:
  numbers print in decimal (`natRepr`), strings pass through, and a plain
  object prints as `[object Object]`.
-/

/-- Decimal digit character: `digitChar d` is the character for `d % 10`. -/
def digitChar (d : Nat) : Char :=
  (String.data "0123456789").getD (d % 10) '0'

/-- Little-endian decimal digits, with structural fuel (`fuel ≥ n` is enough
for the recursion `n ↦ n / 10` to reach 0). -/
def natDigitsLEAux : Nat → Nat → List Char
  | _, 0 => []
  | 0, _ + 1 => []
  | fuel + 1, n + 1 => digitChar ((n + 1) % 10) :: natDigitsLEAux fuel ((n + 1) / 10)

/-- Little-endian decimal digits of a positive number. -/
def natDigitsLE (n : Nat) : List Char := natDigitsLEAux n n

/-- Decimal representation of a natural number, as produced by JS
`String(n)` / template-literal conversion for an integer-valued number. -/
def natRepr (n : Nat) : String :=
  if n = 0 then "0" else String.mk (natDigitsLE n).reverse

/-- A subscriber identity: `userId: number | string` in the source. -/
inductive UserId where
  | num (n : Nat)
  | str (s : String)
deriving DecidableEq, Repr

/-- JS string conversion of a `number | string` value inside a template
literal, as in `` `${channel}:${userId}` `` (src/manager.ts). -/
def userIdToString : UserId → String
  | .num n => natRepr n
  | .str s => s

/-- JSON values, for the `data` payload of events. Numbers are modelled as
integers (the claims under verification do not depend on float printing). -/
inductive Json where
  | null
  | bool (b : Bool)
  | num (n : Int)
  | str (s : String)
  | arr (xs : List Json)
  | obj (fs : List (String × Json))

/-- A broadcast event `{ type, data, html? }` (src/types.ts). -/
structure BroadcastEvent where
  type : String
  data : Json
  html : Option String

/-- Listener identity (JS function object identity inside the `Set`). -/
abbrev Callback := Nat

/-- First value bound to `k`, i.e. JS `Map.get(k)` on the model. -/
def mapGet (l : List (String × List Callback)) (k : String) : Option (List Callback) :=
  match l.find? (fun p => p.1 == k) with
  | some p => some p.2
  | none => none

/-- Rewrite the value bound to `k` in place, i.e. mutating the `Set` object
stored under `k` (position of the key is preserved, as in a JS `Map`). -/
def mapUpdate (l : List (String × List Callback)) (k : String)
    (f : List Callback → List Callback) : List (String × List Callback) :=
  l.map (fun p => if p.1 = k then (p.1, f p.2) else p)

/-- Remove the binding of `k`, i.e. JS `Map.delete(k)`. -/
def mapDelete (l : List (String × List Callback)) (k : String) :
    List (String × List Callback) :=
  l.filter (fun p => p.1 ≠ k)

/-- JS `Set.add`: append if missing, keep position if already present. -/
def setAdd (s : List Callback) (cb : Callback) : List Callback :=
  if cb ∈ s then s else s ++ [cb]

/-- The `BroadcastManager`: its private field
`connections = new Map<string, Set<BroadcastCallback>>()`. -/
structure BroadcastManager where
  connections : List (String × List Callback)
deriving DecidableEq, Repr

/-- A freshly constructed `new BroadcastManager()`. -/
def emptyManager : BroadcastManager := ⟨[]⟩

/-- `getChannelKey(channel, userId)` — builds `` `${channel}:${userId}` ``. -/
def getChannelKey (channel : String) (userId : UserId) : String :=
  channel ++ ":" ++ userIdToString userId

/-- `subscribe(channel, userId, callback)`: create an empty set for the key
if absent, then add the callback to the key's set. (The returned cleanup
closure is embedded separately as `unsubscribeKey`.) -/
def subscribe (m : BroadcastManager) (channel : String) (userId : UserId)
    (cb : Callback) : BroadcastManager :=
  let key := getChannelKey channel userId
  let conns :=
    if (mapGet m.connections key).isSome then m.connections
    else m.connections ++ [(key, [])]
  ⟨mapUpdate conns key (fun s => setAdd s cb)⟩

/-- The cleanup closure returned by `subscribe`, with its captured `key` and
`callback`: delete the callback from the key's set, and drop the key when
the set becomes empty. Absent key or absent callback is a no-op. -/
def unsubscribeKey (m : BroadcastManager) (key : String) (cb : Callback) :
    BroadcastManager :=
  match mapGet m.connections key with
  | none => m
  | some s =>
    let s2 := s.erase cb
    if s2.isEmpty then ⟨mapDelete m.connections key⟩
    else ⟨mapUpdate m.connections key (fun _ => s2)⟩

/-- The same closure addressed by (channel, userId) instead of the raw key. -/
def unsubscribe (m : BroadcastManager) (channel : String) (userId : UserId)
    (cb : Callback) : BroadcastManager :=
  unsubscribeKey m (getChannelKey channel userId) cb

/-- The listener set a publish call iterates over (empty when absent). -/
def listenersOf (m : BroadcastManager) (channel : String) (userId : UserId) :
    List Callback :=
  (mapGet m.connections (getChannelKey channel userId)).getD []

/-- `broadcast(channel, userId, event)` — the invocations it performs:
each callback of the key's set is called with the event, in set iteration
order. The registry map is not modified by a publish. -/
def broadcast (m : BroadcastManager) (channel : String) (userId : UserId)
    (e : BroadcastEvent) : List (Callback × BroadcastEvent) :=
  match mapGet m.connections (getChannelKey channel userId) with
  | none => []
  | some s => s.map (fun cb => (cb, e))

/-- `getConnectionCount(channel, userId)`: size of the key's set, else 0. -/
def getConnectionCount (m : BroadcastManager) (channel : String)
    (userId : UserId) : Nat :=
  ((mapGet m.connections (getChannelKey channel userId)).getD []).length

/-- `getTotalConnections()`: sum of all set sizes. -/
def getTotalConnections (m : BroadcastManager) : Nat :=
  (m.connections.map (fun p => p.2.length)).sum

/-- `getActiveChannels()`: the list of keys, in map order. -/
def getActiveChannels (m : BroadcastManager) : List String :=
  m.connections.map (fun p => p.1)

/-- `clearChannel(channel, userId)`: drop the key. -/
def clearChannel (m : BroadcastManager) (channel : String) (userId : UserId) :
    BroadcastManager :=
  ⟨mapDelete m.connections (getChannelKey channel userId)⟩

/-- `clearAll()`: drop every key. -/
def clearAll (_ : BroadcastManager) : BroadcastManager := ⟨[]⟩

/-! ## Wire encoder (src/stream.ts lines 83-89)

The stream listener serializes
`JSON.stringify({ type: event.type, html: event.html, data: event.data })`
and enqueues `` `data: ${data}\n\n` ``. `JSON.stringify` escapes `"`, `\`
and every control character (below 0x20) inside string values. -/

/-- Lower-case hexadecimal digit character for `d % 16`. -/
def hexDigitChar (d : Nat) : Char :=
  (String.data "0123456789abcdef").getD (d % 16) '0'

/-- How `JSON.stringify` renders one character of a string value. -/
def escapeChar (c : Char) : List Char :=
  if c = '"' then ['\\', '"']
  else if c = '\\' then ['\\', '\\']
  else if c = '\n' then ['\\', 'n']
  else if c = '\r' then ['\\', 'r']
  else if c = '\t' then ['\\', 't']
  else if c = '\x08' then ['\\', 'b']
  else if c = '\x0c' then ['\\', 'f']
  else if c.toNat < 32 then
    ['\\', 'u', '0', '0', hexDigitChar (c.toNat / 16), hexDigitChar c.toNat]
  else [c]

/-- A JSON string literal: quoted, with every character escaped. -/
def strChars (s : String) : List Char :=
  '"' :: (s.data.map escapeChar).flatten ++ ['"']

/-- Decimal rendering of an integer. -/
def intRepr : Int → List Char
  | .ofNat n => (natRepr n).data
  | .negSucc n => '-' :: (natRepr (n + 1)).data

/-- Comma-separated concatenation of rendered items. -/
def joinComma : List (List Char) → List Char
  | [] => []
  | [x] => x
  | x :: y :: xs => x ++ ',' :: joinComma (y :: xs)

/-- `JSON.stringify`, character-list level. -/
def stringifyVal : Json → List Char
  | .null => "null".data
  | .bool b => if b then "true".data else "false".data
  | .num n => intRepr n
  | .str s => strChars s
  | .arr xs => '[' :: joinComma (xs.attach.map fun x => stringifyVal x.1) ++ [']']
  | .obj fs =>
    '\x7b' :: joinComma (fs.attach.map fun f => strChars f.1.1 ++ ':' :: stringifyVal f.1.2)
      ++ ['\x7d']
termination_by j => sizeOf j
decreasing_by
  · have := List.sizeOf_lt_of_mem x.2
    simp only [Json.arr.sizeOf_spec]
    omega
  · have h1 := List.sizeOf_lt_of_mem f.2
    have h2 : sizeOf f.1.2 < sizeOf f.1 := by
      obtain ⟨a, b⟩ := f.1
      simp only [Prod.mk.sizeOf_spec]
      omega
    simp only [Json.obj.sizeOf_spec]
    omega

/-- `JSON.stringify` as a string. -/
def stringify (j : Json) : String := String.mk (stringifyVal j)

/-- The object literal `{ type: event.type, html: event.html, data: event.data }`
passed to `JSON.stringify`; an absent (`undefined`) `html` field is omitted
from the serialized object, exactly as `JSON.stringify` does. -/
def eventJson (e : BroadcastEvent) : Json :=
  .obj ([("type", .str e.type)]
    ++ (match e.html with | some h => [("html", .str h)] | none => [])
    ++ [("data", e.data)])

/-- The SSE frame the stream listener enqueues for an event:
`` `data: ${JSON.stringify(...)}\n\n` ``. -/
def encodeFrame (e : BroadcastEvent) : String :=
  "data: " ++ stringify (eventJson e) ++ "\n\n"

/-! ## Publish with listener behaviours (src/manager.ts lines 269-276)

`broadcast` runs `channelCallbacks.forEach(callback => callback(event))`
with no try/catch around the callback. To reason about a listener that
throws, a behaviour map assigns each callback either success (`none`) or a
thrown error (`some err`). JS `forEach` stops at the first throw and the
exception escapes to the caller of `broadcast`. -/

/-- Invoke callbacks left to right; a throw stops the iteration. Returns the
callbacks actually invoked (the thrower included) and the escaped error. -/
def invokeSeq (beh : Callback → Option String) : List Callback → List Callback × Option String
  | [] => ([], none)
  | cb :: rest =>
    match beh cb with
    | some err => ([cb], some err)
    | none =>
      let r := invokeSeq beh rest
      (cb :: r.1, r.2)

/-- `broadcast(channel, userId, event)` under a behaviour map: the map after
the call (the source never mutates `connections` during a publish), the
callbacks invoked, and the error escaping to the publisher, if any. -/
def broadcastWithBeh (m : BroadcastManager) (channel : String) (userId : UserId)
    (beh : Callback → Option String) :
    BroadcastManager × List Callback × Option String :=
  let r := invokeSeq beh (listenersOf m channel userId)
  (m, r.1, r.2)

/-! ## Stream connections (src/stream.ts lines 75-107)

Each SSE connection owns a `ReadableStream` controller. The listener
registered at `start` serializes the event and enqueues the frame inside a
`try`; when the controller is already closed the enqueue throws and the
`catch` only logs ("Controller already closed, ignore"). The unsubscribe
handle is invoked only from `cancel`. -/

/-- One open SSE connection: its listener identity in the registry, whether
its controller is already closed (a write would throw), and the frames
enqueued so far. -/
structure StreamConn where
  id : Callback
  closedQ : Bool
  buffer : List String

/-- The listener closure of src/stream.ts lines 82-96 applied to one event:
on an open controller the frame is enqueued; on a closed controller the
enqueue throws, the catch block logs and changes nothing. The closure never
lets the exception escape. -/
def streamListenerStep (e : BroadcastEvent) (c : StreamConn) : StreamConn :=
  if c.closedQ then c
  else { c with buffer := c.buffer ++ [encodeFrame e] }

/-- A publish delivered to stream connections: the registry decides which
listener identities are invoked; each invoked connection runs its listener
closure. The registry map itself is untouched — the catch block does not
call the unsubscribe handle. -/
def streamBroadcast (m : BroadcastManager) (cs : List StreamConn)
    (channel : String) (userId : UserId) (e : BroadcastEvent) :
    BroadcastManager × List StreamConn :=
  let invoked := (broadcast m channel userId e).map (fun p => p.1)
  (m, cs.map (fun c => if c.id ∈ invoked then streamListenerStep e c else c))

/-- The `cancel` path of the stream (src/stream.ts lines 98-106): invoke the
unsubscribe handle captured at registration. -/
def streamCancel (m : BroadcastManager) (c : StreamConn) (channel : String)
    (userId : UserId) : BroadcastManager :=
  unsubscribe m channel userId c.id

/-! ## Plugin wiring (src/plugin.ts lines 27-50)

`broadcastPlugin()` constructs `new BroadcastManager()` and stores it;
the module-level export `broadcastManager` is a second, independently
constructed `new BroadcastManager()`. A process using both holds two
distinct registries. -/

/-- The two manager instances living in one process: the one the plugin put
into the Elysia store, and the module-level exported singleton. -/
structure ProcessState where
  pluginManager : BroadcastManager
  exportedManager : BroadcastManager

/-- Process start: both `new BroadcastManager()` calls yield empty managers. -/
def initProcess : ProcessState := ⟨emptyManager, emptyManager⟩

/-- A route handler subscribing through `store.broadcast`. -/
def subscribeViaPlugin (st : ProcessState) (channel : String) (userId : UserId)
    (cb : Callback) : ProcessState :=
  { st with pluginManager := subscribe st.pluginManager channel userId cb }

/-- A background job subscribing through the exported `broadcastManager`. -/
def subscribeViaExported (st : ProcessState) (channel : String) (userId : UserId)
    (cb : Callback) : ProcessState :=
  { st with exportedManager := subscribe st.exportedManager channel userId cb }

/-- A publish through the exported `broadcastManager`: only listeners held by
the exported instance can be invoked. -/
def broadcastViaExported (st : ProcessState) (channel : String) (userId : UserId)
    (e : BroadcastEvent) : List (Callback × BroadcastEvent) :=
  broadcast st.exportedManager channel userId e

/-! ## The two-argument `broadcast` call (tests lines 112-159, example.ts)

The tests and the usage example call `manager.broadcast(channel, event)`
with no `userId`. At runtime the event object is bound to the `userId`
parameter and `event` is `undefined`; the template literal converts the
plain event object with `Object.prototype.toString`, so the key looked up
is `` `${channel}:[object Object]` ``. -/

/-- JS default string conversion of a plain object inside a template
literal. -/
def objectDefaultString : String := "[object Object]"

/-- What `broadcast(channel, event)` actually does: look up the key built
from the stringified event object and invoke the callbacks found there
(with `undefined` as the event). Returns the callbacks invoked. -/
def broadcastChannelOnly (m : BroadcastManager) (channel : String) : List Callback :=
  (mapGet m.connections (channel ++ ":" ++ objectDefaultString)).getD []

/-- The registry shape invariant: every key present in the map holds a
non-empty listener set. -/
abbrev WF (m : BroadcastManager) : Prop := ∀ p ∈ m.connections, p.2 ≠ []

/-- JS `Set` semantics: the listener containers never hold duplicates. -/
abbrev SetInv (m : BroadcastManager) : Prop := ∀ p ∈ m.connections, p.2.Nodup

/-! ## Registry lemmas -/

theorem setAdd_ne_nil (s : List Callback) (cb : Callback) : setAdd s cb ≠ [] := by
  unfold setAdd
  split
  · rintro rfl; simp_all
  · simp

theorem setAdd_mem (s : List Callback) (cb : Callback) : cb ∈ setAdd s cb := by
  unfold setAdd
  split
  · assumption
  · simp

theorem setAdd_of_not_mem {s : List Callback} {cb : Callback} (h : cb ∉ s) :
    setAdd s cb = s ++ [cb] := by
  unfold setAdd
  simp [h]

theorem mapGet_nil (k : String) : mapGet [] k = none := rfl

theorem mapGet_cons (p : String × List Callback) (ps : List (String × List Callback))
    (k : String) : mapGet (p :: ps) k = if p.1 = k then some p.2 else mapGet ps k := by
  by_cases h : p.1 = k
  · simp [mapGet, List.find?_cons_of_pos, h]
  · simp [mapGet, List.find?_cons_of_neg, h]

theorem mapUpdate_cons (p : String × List Callback) (ps : List (String × List Callback))
    (k : String) (f : List Callback → List Callback) :
    mapUpdate (p :: ps) k f = (if p.1 = k then (p.1, f p.2) else p) :: mapUpdate ps k f := rfl

theorem mapGet_update_self (l : List (String × List Callback)) (k : String)
    (f : List Callback → List Callback) :
    mapGet (mapUpdate l k f) k = (mapGet l k).map f := by
  induction l with
  | nil => rfl
  | cons p ps ih =>
    rw [mapUpdate_cons, mapGet_cons, mapGet_cons]
    by_cases h : p.1 = k
    · simp [h]
    · simp [h, ih]

theorem mapGet_eq_none_iff (l : List (String × List Callback)) (k : String) :
    mapGet l k = none ↔ l.find? (fun p => p.1 == k) = none := by
  unfold mapGet
  cases h : l.find? (fun p => p.1 == k) <;> simp

theorem mapGet_append_of_none {l : List (String × List Callback)} {k : String}
    (h : mapGet l k = none) (v : List Callback) : mapGet (l ++ [(k, v)]) k = some v := by
  unfold mapGet
  rw [List.find?_append, (mapGet_eq_none_iff l k).mp h]
  simp [List.find?]

theorem mapGet_some_mem {l : List (String × List Callback)} {k : String}
    {s : List Callback} (h : mapGet l k = some s) : ∃ p ∈ l, p.1 = k ∧ p.2 = s := by
  unfold mapGet at h
  cases hf : l.find? (fun p => p.1 == k) with
  | none => rw [hf] at h; exact absurd h (by simp)
  | some p =>
    rw [hf] at h
    refine ⟨p, List.mem_of_find?_eq_some hf, ?_, by simpa using h⟩
    have := List.find?_some hf
    simpa using this

theorem mapGet_delete_self (l : List (String × List Callback)) (k : String) :
    mapGet (mapDelete l k) k = none := by
  rw [mapGet_eq_none_iff]
  apply List.find?_eq_none.mpr
  intro p hp
  have := List.of_mem_filter hp
  simpa using this

theorem not_mem_keys_delete (l : List (String × List Callback)) (k : String) :
    k ∉ (mapDelete l k).map (fun p => p.1) := by
  intro h
  obtain ⟨p, hp, hk⟩ := List.mem_map.mp h
  have := List.of_mem_filter hp
  simp [hk] at this

theorem mapUpdate_mapUpdate (l : List (String × List Callback)) (k : String)
    (f g : List Callback → List Callback) :
    mapUpdate (mapUpdate l k f) k g = mapUpdate l k (fun s => g (f s)) := by
  unfold mapUpdate
  rw [List.map_map]
  apply List.map_congr_left
  intro p _
  by_cases h : p.1 = k
  · simp [h]
  · simp [h]

theorem listenersOf_subscribe_self (m : BroadcastManager) (c : String) (u : UserId)
    (cb : Callback) :
    listenersOf (subscribe m c u cb) c u = setAdd (listenersOf m c u) cb := by
  unfold listenersOf subscribe
  cases h : mapGet m.connections (getChannelKey c u) with
  | some s => simp [h, mapGet_update_self]
  | none =>
    simp only [h, Option.isSome_none, Bool.false_eq_true, if_false, Option.getD_none]
    rw [mapGet_update_self, mapGet_append_of_none h]
    simp

theorem broadcast_eq_map (m : BroadcastManager) (c : String) (u : UserId)
    (e : BroadcastEvent) :
    broadcast m c u e = (listenersOf m c u).map (fun cb => (cb, e)) := by
  unfold broadcast listenersOf
  cases h : mapGet m.connections (getChannelKey c u) <;> simp

theorem getConnectionCount_eq (m : BroadcastManager) (c : String) (u : UserId) :
    getConnectionCount m c u = (listenersOf m c u).length := rfl

theorem WF_subscribe {m : BroadcastManager} (h : WF m) (c : String) (u : UserId)
    (cb : Callback) : WF (subscribe m c u cb) := by
  intro p hp
  unfold subscribe at hp
  simp only [mapUpdate, List.mem_map] at hp
  obtain ⟨q, hq, rfl⟩ := hp
  by_cases hk : q.1 = getChannelKey c u
  · simp only [hk, if_true]
    exact setAdd_ne_nil q.2 cb
  · simp only [hk, if_false]
    split at hq
    · exact h q hq
    · rcases List.mem_append.mp hq with hq' | hq'
      · exact h q hq'
      · simp at hq'
        rw [hq'] at hk
        simp at hk

theorem WF_unsubscribeKey {m : BroadcastManager} (h : WF m) (k : String)
    (cb : Callback) : WF (unsubscribeKey m k cb) := by
  unfold unsubscribeKey
  cases hg : mapGet m.connections k with
  | none => exact h
  | some s =>
    simp only []
    split
    · intro p hp
      exact h p (List.mem_of_mem_filter hp)
    · intro p hp
      simp only [mapUpdate, List.mem_map] at hp
      obtain ⟨q, hq, rfl⟩ := hp
      by_cases hk : q.1 = k
      · simp only [hk, if_true]
        intro hnil
        simp_all [List.isEmpty_iff]
      · simp only [hk, if_false]
        exact h q hq

theorem WF_clearChannel {m : BroadcastManager} (h : WF m) (c : String) (u : UserId) :
    WF (clearChannel m c u) := by
  intro p hp
  exact h p (List.mem_of_mem_filter hp)

theorem WF_clearAll (m : BroadcastManager) : WF (clearAll m) := by
  intro p hp
  simp [clearAll] at hp

theorem WF_empty : WF emptyManager := by
  intro p hp
  simp [emptyManager] at hp

theorem active_iff_count_ne_zero {m : BroadcastManager} (h : WF m) (k : String) :
    k ∈ getActiveChannels m ↔ (mapGet m.connections k).getD [] ≠ [] := by
  constructor
  · intro hk
    obtain ⟨p, hp, hpk⟩ := List.mem_map.mp hk
    have hsome : (m.connections.find? (fun q => q.1 == k)).isSome := by
      apply List.find?_isSome.mpr
      exact ⟨p, hp, by simp [hpk]⟩
    obtain ⟨q, hq⟩ := Option.isSome_iff_exists.mp hsome
    have hmem := List.mem_of_find?_eq_some hq
    have : mapGet m.connections k = some q.2 := by
      unfold mapGet
      rw [hq]
    rw [this]
    simpa using h q hmem
  · intro hne
    cases hg : mapGet m.connections k with
    | none => rw [hg] at hne; simp at hne
    | some s =>
      obtain ⟨p, hp, hpk, _⟩ := mapGet_some_mem hg
      exact List.mem_map.mpr ⟨p, hp, hpk⟩

theorem last_unsubscribe_removes_key {m : BroadcastManager} {k : String}
    {cb : Callback} (h : mapGet m.connections k = some [cb]) :
    k ∉ getActiveChannels (unsubscribeKey m k cb) := by
  unfold unsubscribeKey
  rw [h]
  simp only [List.erase_cons_head, List.isEmpty_nil, if_true]
  exact not_mem_keys_delete m.connections k

theorem unsubscribeKey_idem {m : BroadcastManager} (h : SetInv m) (k : String)
    (cb : Callback) :
    unsubscribeKey (unsubscribeKey m k cb) k cb = unsubscribeKey m k cb := by
  cases hg : mapGet m.connections k with
  | none =>
    have h1 : unsubscribeKey m k cb = m := by
      unfold unsubscribeKey
      rw [hg]
    rw [h1, h1]
  | some s =>
    obtain ⟨p, hp, _, hps⟩ := mapGet_some_mem hg
    have hnodup : s.Nodup := hps ▸ h p hp
    by_cases he : (s.erase cb).isEmpty
    · have h1 : unsubscribeKey m k cb = ⟨mapDelete m.connections k⟩ := by
        unfold unsubscribeKey
        rw [hg]
        simp [he]
      rw [h1]
      unfold unsubscribeKey
      rw [show mapGet (mapDelete m.connections k) k = none from mapGet_delete_self _ _]
    · have h1 : unsubscribeKey m k cb =
          ⟨mapUpdate m.connections k (fun _ => s.erase cb)⟩ := by
        unfold unsubscribeKey
        rw [hg]
        simp [he]
      rw [h1]
      have hnm : cb ∉ s.erase cb := by
        intro hmem
        exact absurd ((hnodup.mem_erase_iff).mp hmem).1 (by simp)
      unfold unsubscribeKey
      rw [mapGet_update_self, hg,
        show Option.map (fun _ => s.erase cb) (some s) = some (s.erase cb) from rfl]
      simp only [List.erase_of_not_mem hnm, he, if_false]
      rw [mapUpdate_mapUpdate]
      simp

theorem invokeSeq_all_ok {beh : Callback → Option String} :
    ∀ {l : List Callback}, (∀ x ∈ l, beh x = none) → invokeSeq beh l = (l, none) := by
  intro l
  induction l with
  | nil => intro _; rfl
  | cons cb rest ih =>
    intro h
    have hcb := h cb (by simp)
    simp only [invokeSeq, hcb]
    rw [ih (fun x hx => h x (by simp [hx]))]

theorem invokeSeq_first_err {beh : Callback → Option String} {err : String} :
    ∀ (pre : List Callback) (cb : Callback) (post : List Callback),
      (∀ x ∈ pre, beh x = none) → beh cb = some err →
      invokeSeq beh (pre ++ cb :: post) = (pre ++ [cb], some err) := by
  intro pre
  induction pre with
  | nil =>
    intro cb post _ hcb
    simp only [List.nil_append, invokeSeq, hcb]
  | cons a rest ih =>
    intro cb post h hcb
    have ha := h a (by simp)
    simp only [List.cons_append, invokeSeq, ha, List.append_eq]
    rw [ih cb post (fun x hx => h x (by simp [hx])) hcb]

/-! ## Encoder lemmas: every character `JSON.stringify` emits is printable
(codepoint at least 0x20), so in particular no raw newline appears. -/

theorem hexDigitChar_ge (d : Nat) : 32 ≤ (hexDigitChar d).toNat := by
  unfold hexDigitChar
  have h : d % 16 < 16 := Nat.mod_lt _ (by omega)
  set k := d % 16 with hk
  interval_cases k <;> decide

theorem digitChar_ge (d : Nat) : 32 ≤ (digitChar d).toNat := by
  unfold digitChar
  have h : d % 10 < 10 := Nat.mod_lt _ (by omega)
  set k := d % 10 with hk
  interval_cases k <;> decide

theorem escapeChar_ge (c : Char) : ∀ d ∈ escapeChar c, 32 ≤ d.toNat := by
  unfold escapeChar
  split_ifs with h1 h2 h3 h4 h5 h6 h7 h8
  · intro d hd; simp at hd; rcases hd with rfl | rfl <;> decide
  · intro d hd; simp at hd; subst hd; decide
  · intro d hd; simp at hd; rcases hd with rfl | rfl <;> decide
  · intro d hd; simp at hd; rcases hd with rfl | rfl <;> decide
  · intro d hd; simp at hd; rcases hd with rfl | rfl <;> decide
  · intro d hd; simp at hd; rcases hd with rfl | rfl <;> decide
  · intro d hd; simp at hd; rcases hd with rfl | rfl <;> decide
  · intro d hd
    rcases List.mem_cons.mp hd with rfl | hd
    · decide
    rcases List.mem_cons.mp hd with rfl | hd
    · decide
    rcases List.mem_cons.mp hd with rfl | hd
    · decide
    rcases List.mem_cons.mp hd with rfl | hd
    · decide
    rcases List.mem_cons.mp hd with rfl | hd
    · exact hexDigitChar_ge _
    rcases List.mem_cons.mp hd with rfl | hd
    · exact hexDigitChar_ge _
    simp at hd
  · intro d hd; simp at hd; subst hd; omega

theorem strChars_ge (s : String) : ∀ d ∈ strChars s, 32 ≤ d.toNat := by
  unfold strChars
  intro d hd
  rcases List.mem_cons.mp hd with rfl | hd'
  · decide
  rcases List.mem_append.mp hd' with hdf | hdq
  · obtain ⟨sub, hsub, hdsub⟩ := List.mem_flatten.mp hdf
    obtain ⟨ch, _, rfl⟩ := List.mem_map.mp hsub
    exact escapeChar_ge ch d hdsub
  · simp at hdq; subst hdq; decide

theorem natDigitsLEAux_ge : ∀ (fuel n : Nat), ∀ c ∈ natDigitsLEAux fuel n, 32 ≤ c.toNat := by
  intro fuel
  induction fuel with
  | zero =>
    intro n c hc
    cases n <;> simp [natDigitsLEAux] at hc
  | succ f ih =>
    intro n c hc
    cases n with
    | zero => simp [natDigitsLEAux] at hc
    | succ n' =>
      simp only [natDigitsLEAux, List.mem_cons] at hc
      rcases hc with rfl | hc'
      · exact digitChar_ge _
      · exact ih _ c hc'

theorem natRepr_ge (n : Nat) : ∀ c ∈ (natRepr n).data, 32 ≤ c.toNat := by
  unfold natRepr
  split
  · intro c hc; simp at hc; subst hc; decide
  · intro c hc
    have : c ∈ (natDigitsLE n).reverse := hc
    rw [List.mem_reverse] at this
    exact natDigitsLEAux_ge n n c this

theorem intRepr_ge (n : Int) : ∀ c ∈ intRepr n, 32 ≤ c.toNat := by
  cases n with
  | ofNat m => exact natRepr_ge m
  | negSucc m =>
    intro c hc
    rcases List.mem_cons.mp hc with rfl | hc'
    · decide
    · exact natRepr_ge (m + 1) c hc'

theorem joinComma_ge : ∀ (l : List (List Char)),
    (∀ x ∈ l, ∀ c ∈ x, 32 ≤ c.toNat) → ∀ c ∈ joinComma l, 32 ≤ c.toNat := by
  intro l
  induction l with
  | nil => intro _ c hc; simp [joinComma] at hc
  | cons x xs ih =>
    intro h c hc
    cases xs with
    | nil => exact h x (by simp) c (by simpa [joinComma] using hc)
    | cons y ys =>
      simp only [joinComma] at hc
      rcases List.mem_append.mp hc with hx | hys
      · exact h x (by simp) c hx
      · rcases List.mem_cons.mp hys with rfl | hys'
        · decide
        · exact ih (fun a ha => h a (by simp [ha])) c hys'

theorem stringifyVal_ge_aux : ∀ (N : Nat) (j : Json), sizeOf j ≤ N →
    ∀ c ∈ stringifyVal j, 32 ≤ c.toNat := by
  intro N
  induction N with
  | zero =>
    intro j hj
    exfalso
    cases j <;> simp_all
  | succ N ih =>
    intro j hj c hc
    cases j with
    | null =>
      simp only [stringifyVal] at hc
      exact (by decide : ∀ c ∈ "null".data, 32 ≤ c.toNat) c hc
    | bool b =>
      cases b <;> simp only [stringifyVal, if_true, if_false] at hc
      · exact (by decide : ∀ c ∈ "false".data, 32 ≤ c.toNat) c hc
      · exact (by decide : ∀ c ∈ "true".data, 32 ≤ c.toNat) c hc
    | num n =>
      simp only [stringifyVal] at hc
      exact intRepr_ge n c hc
    | str s =>
      simp only [stringifyVal] at hc
      exact strChars_ge s c hc
    | arr xs =>
      simp only [stringifyVal] at hc
      rcases List.mem_cons.mp hc with rfl | hc'
      · decide
      rcases List.mem_append.mp hc' with hcj | hcr
      · refine joinComma_ge _ ?_ c hcj
        intro x hx c' hc'
        obtain ⟨a, _, rfl⟩ := List.mem_map.mp hx
        have h1 := List.sizeOf_lt_of_mem a.2
        rw [Json.arr.sizeOf_spec] at hj
        exact ih a.1 (by omega) c' hc'
      · simp at hcr; subst hcr; decide
    | obj fs =>
      simp only [stringifyVal] at hc
      rcases List.mem_cons.mp hc with rfl | hc'
      · decide
      rcases List.mem_append.mp hc' with hcj | hcr
      · refine joinComma_ge _ ?_ c hcj
        intro x hx c' hc'
        obtain ⟨f, _, rfl⟩ := List.mem_map.mp hx
        rcases List.mem_append.mp hc' with hcs | hcv
        · exact strChars_ge f.1.1 c' hcs
        rcases List.mem_cons.mp hcv with rfl | hcv'
        · decide
        · have h1 := List.sizeOf_lt_of_mem f.2
          have h2 : sizeOf f.1.2 < sizeOf f.1 := by
            obtain ⟨a, b⟩ := f.1
            simp only [Prod.mk.sizeOf_spec]
            omega
          rw [Json.obj.sizeOf_spec] at hj
          exact ih f.1.2 (by omega) c' hcv'
      · simp at hcr; subst hcr; decide

theorem stringifyVal_ge (j : Json) : ∀ c ∈ stringifyVal j, 32 ≤ c.toNat :=
  stringifyVal_ge_aux (sizeOf j) j le_rfl

theorem colon_split :
    ∀ {l1 l2 r1 r2 : List Char}, ':' ∉ l1 → ':' ∉ l2 →
      l1 ++ ':' :: r1 = l2 ++ ':' :: r2 → l1 = l2 ∧ r1 = r2 := by
  intro l1
  induction l1 with
  | nil =>
    intro l2 r1 r2 _ h2 h
    cases l2 with
    | nil => simpa using h
    | cons b bs =>
      simp only [List.nil_append, List.cons_append, List.cons.injEq] at h
      exact absurd (by rw [← h.1]; exact List.mem_cons_self ':' bs) h2
  | cons a as ih =>
    intro l2 r1 r2 h1 h2 h
    cases l2 with
    | nil =>
      simp only [List.nil_append, List.cons_append, List.cons.injEq] at h
      exact absurd (by rw [h.1]; exact List.mem_cons_self ':' as) h1
    | cons b bs =>
      simp only [List.cons_append, List.cons.injEq] at h
      obtain ⟨rfl, htl⟩ := h
      have := ih (fun hm => h1 (List.mem_cons_of_mem _ hm))
        (fun hm => h2 (List.mem_cons_of_mem _ hm)) htl
      exact ⟨by rw [this.1], this.2⟩

/-! ## Claim theorems -/

/-- C1 counterexample: subscription keys of distinct (channel, subscriberId)
pairs collide. The listener registered under the pair ("a", "b:c") is
invoked by a publish addressed to the distinct pair ("a:b", "c"), because
`getChannelKey` concatenates with ':' and both pairs yield the key
"a:b:c". This refutes the claim that `broadcast(channel, userId, event)`
invokes no listener registered under another pair. -/
theorem c1_key_collision_cex :
    getChannelKey "a" (UserId.str "b:c") = getChannelKey "a:b" (UserId.str "c") ∧
    broadcast (subscribe emptyManager "a" (UserId.str "b:c") 1) "a:b" (UserId.str "c")
        ⟨"x", Json.null, none⟩
      = [(1, ⟨"x", Json.null, none⟩)] := by
  exact ⟨rfl, rfl⟩

/-- C1 (amended): `broadcast(channel, userId, event)` invokes exactly the
listeners stored under the key string `channel ++ ":" ++ userId`; distinct
(channel, subscriberId) pairs can share that key string when a channel name
contains the ':' delimiter, but whenever the channel names are free of ':'
the keys of distinct pairs are distinct, so delivery targets exactly the
one intended pair. -/
theorem c1_exact_delivery_when_no_colon (c1 c2 s1 s2 : String)
    (h1 : ':' ∉ c1.data) (h2 : ':' ∉ c2.data) :
    (getChannelKey c1 (UserId.str s1) = getChannelKey c2 (UserId.str s2) ↔
      (c1 = c2 ∧ s1 = s2)) ∧
    ∀ (m : BroadcastManager) (e : BroadcastEvent),
      broadcast m c1 (UserId.str s1) e
        = (listenersOf m c1 (UserId.str s1)).map (fun cb => (cb, e)) := by
  refine ⟨⟨fun h => ?_, fun h => by rw [h.1, h.2]⟩, fun m e => broadcast_eq_map m c1 _ e⟩
  have hd : (getChannelKey c1 (UserId.str s1)).data
      = (getChannelKey c2 (UserId.str s2)).data := by rw [h]
  unfold getChannelKey userIdToString at hd
  rw [String.data_append, String.data_append, String.data_append, String.data_append] at hd
  have hd' : c1.data ++ ':' :: s1.data = c2.data ++ ':' :: s2.data := by
    simpa using hd
  have hsplit := colon_split h1 h2 hd'
  exact ⟨String.ext hsplit.1, String.ext hsplit.2⟩

/-- C1 witness: the amended key-collision-freedom applied to the concrete
':'-free channels "todos" and "other". -/
theorem c1_exact_delivery_when_no_colon_witness :
    (':' ∉ "todos".data) ∧ (':' ∉ "other".data) ∧
    ((getChannelKey "todos" (UserId.str "1") = getChannelKey "other" (UserId.str "2")) ↔
      ("todos" = "other" ∧ "1" = "2")) :=
  ⟨by decide, by decide,
    (c1_exact_delivery_when_no_colon "todos" "other" "1" "2" (by decide) (by decide)).1⟩

/-- C2: evaluating the code at the failing input of the repository's own
test "should broadcast to all users in channel without userId param"
(tests/broadcast.test.ts lines 112-123). With listeners 1, 2, 3 under
channel "test" (users 1, 2, 3) and listener 4 under "other", the
two-argument call `broadcast('test', event)` binds the event object to the
`userId` parameter, looks up the key "test:[object Object]" and invokes no
listener at all, although four listeners are registered and the test
expects the three "test" listeners to be invoked. -/
theorem c2_channel_only_broadcast_delivers_nothing :
    broadcastChannelOnly
        (subscribe (subscribe (subscribe (subscribe emptyManager
          "test" (UserId.num 1) 1) "test" (UserId.num 2) 2)
          "test" (UserId.num 3) 3) "other" (UserId.num 1) 4) "test" = [] ∧
    getTotalConnections
        (subscribe (subscribe (subscribe (subscribe emptyManager
          "test" (UserId.num 1) 1) "test" (UserId.num 2) 2)
          "test" (UserId.num 3) 3) "other" (UserId.num 1) 4) = 4 := by
  exact ⟨rfl, rfl⟩

/-- C3 counterexample: with listeners 1 and 2 registered under the key
("t", 1) and listener 1 throwing, `broadcast`'s bare
`forEach(callback => callback(event))` invokes only listener 1; the
remaining listener 2 of the same key is never invoked and the exception
escapes to the publisher, refuting the claim that the error is caught at
listener granularity. -/
theorem c3_listener_throw_aborts_delivery_cex :
    (broadcastWithBeh (subscribe (subscribe emptyManager "t" (UserId.num 1) 1)
        "t" (UserId.num 1) 2) "t" (UserId.num 1)
        (fun cb => if cb = 1 then some "boom" else none)).2.1 = [1] ∧
    (broadcastWithBeh (subscribe (subscribe emptyManager "t" (UserId.num 1) 1)
        "t" (UserId.num 1) 2) "t" (UserId.num 1)
        (fun cb => if cb = 1 then some "boom" else none)).2.2 = some "boom" := by
  exact ⟨rfl, rfl⟩

/-- C3 (amended): when a listener throws during `broadcast`, the listeners
before it in set-iteration order have been invoked, the throwing listener
is the last one invoked — the listeners after it are skipped — and the
exception escapes to the publisher; the key-to-listener-set map itself is
unchanged by the failure. -/
theorem c3_throw_propagates_and_preserves_registry (m : BroadcastManager)
    (c : String) (u : UserId) (beh : Callback → Option String) (err : String)
    (pre : List Callback) (cb : Callback) (post : List Callback)
    (hl : listenersOf m c u = pre ++ cb :: post)
    (hpre : ∀ x ∈ pre, beh x = none)
    (hcb : beh cb = some err) :
    broadcastWithBeh m c u beh = (m, pre ++ [cb], some err) := by
  unfold broadcastWithBeh
  rw [hl, invokeSeq_first_err pre cb post hpre hcb]

/-- C3 witness: the amended statement applied to the concrete two-listener
registry of the counterexample. -/
theorem c3_throw_propagates_witness :
    broadcastWithBeh (subscribe (subscribe emptyManager "t" (UserId.num 1) 1)
        "t" (UserId.num 1) 2) "t" (UserId.num 1)
        (fun cb => if cb = 1 then some "boom" else none)
      = (subscribe (subscribe emptyManager "t" (UserId.num 1) 1) "t" (UserId.num 1) 2,
          [1], some "boom") :=
  c3_throw_propagates_and_preserves_registry
    (subscribe (subscribe emptyManager "t" (UserId.num 1) 1) "t" (UserId.num 1) 2)
    "t" (UserId.num 1) (fun cb => if cb = 1 then some "boom" else none) "boom"
    [] 1 [2] (by decide) (by simp) (by decide)

/-- C4 counterexample: two stream connections share the key ("c", 1);
connection 1's controller is already closed, so the write of the event
fails inside its listener. After the publish, both listeners are still
registered (`getConnectionCount` is still 2): the catch block only logs
and never invokes the unregister handle, refuting the claim that the write
failure triggers the connection's own teardown. The open connection 2
still received its frame. -/
theorem c4_write_failure_no_teardown_cex :
    (streamBroadcast (subscribe (subscribe emptyManager "c" (UserId.num 1) 1)
        "c" (UserId.num 1) 2) [⟨1, true, []⟩, ⟨2, false, []⟩]
        "c" (UserId.num 1) ⟨"x", Json.null, none⟩).1
      = subscribe (subscribe emptyManager "c" (UserId.num 1) 1) "c" (UserId.num 1) 2 ∧
    getConnectionCount
      (streamBroadcast (subscribe (subscribe emptyManager "c" (UserId.num 1) 1)
        "c" (UserId.num 1) 2) [⟨1, true, []⟩, ⟨2, false, []⟩]
        "c" (UserId.num 1) ⟨"x", Json.null, none⟩).1 "c" (UserId.num 1) = 2 ∧
    ((streamBroadcast (subscribe (subscribe emptyManager "c" (UserId.num 1) 1)
        "c" (UserId.num 1) 2) [⟨1, true, []⟩, ⟨2, false, []⟩]
        "c" (UserId.num 1) ⟨"x", Json.null, none⟩).2.map (fun conn => conn.buffer))
      = [[], [encodeFrame ⟨"x", Json.null, none⟩]] := by
  refine ⟨rfl, by decide, rfl⟩

/-- C4 (amended): a failed write (closed controller) is caught inside that
connection's own listener and leaves the connection and the registry
untouched — in particular the unregister handle is NOT invoked by the
failure, deregistration happens only through the stream's `cancel` path —
and every other invoked connection with an open controller still receives
the encoded frame. -/
theorem c4_write_failure_isolated_no_teardown (m : BroadcastManager)
    (cs : List StreamConn) (c : String) (u : UserId) (e : BroadcastEvent) :
    (streamBroadcast m cs c u e).1 = m ∧
    (streamBroadcast m cs c u e).2 = cs.map (fun conn =>
      if conn.id ∈ listenersOf m c u ∧ conn.closedQ = false
      then { conn with buffer := conn.buffer ++ [encodeFrame e] }
      else conn) ∧
    ∀ conn : StreamConn, streamCancel m conn c u = unsubscribe m c u conn.id := by
  refine ⟨rfl, ?_, fun _ => rfl⟩
  unfold streamBroadcast
  simp only [broadcast_eq_map, List.map_map]
  have hid : ((fun p => p.1) ∘ fun cb => ((cb, e) : Callback × BroadcastEvent))
      = fun cb => cb := rfl
  rw [hid, List.map_id']
  apply List.map_congr_left
  intro conn _
  by_cases hm : conn.id ∈ listenersOf m c u
  · by_cases hcl : conn.closedQ
    · simp [hm, hcl, streamListenerStep]
    · simp [hm, hcl, streamListenerStep]
  · simp [hm]

/-- C5 counterexample: `broadcastPlugin()` constructs its own
`new BroadcastManager()` while the module-level export `broadcastManager`
is a second, independently constructed instance. After a handler
subscribes listener 7 through the plugin-injected manager, the count seen
through the plugin instance is 1 but the count seen through the exported
instance is 0, and a publish through the exported instance invokes
nothing, refuting the claim that the two accessors reference the same
underlying instance. -/
theorem c5_two_instances_cex :
    getConnectionCount (subscribeViaPlugin initProcess "c" (UserId.num 1) 7).pluginManager
        "c" (UserId.num 1) = 1 ∧
    getConnectionCount (subscribeViaPlugin initProcess "c" (UserId.num 1) 7).exportedManager
        "c" (UserId.num 1) = 0 ∧
    broadcastViaExported (subscribeViaPlugin initProcess "c" (UserId.num 1) 7)
        "c" (UserId.num 1) ⟨"x", Json.null, none⟩ = [] := by
  exact ⟨by decide, by decide, rfl⟩

/-- C5 (amended): the plugin-injected manager and the exported
`broadcastManager` are independent instances — an operation through one is
invisible through the other: subscribing via the plugin store leaves the
exported instance unchanged (and vice versa), and a publish through the
exported instance is unaffected by subscriptions made via the plugin
instance. -/
theorem c5_instances_independent (st : ProcessState) (c : String) (u : UserId)
    (cb : Callback) (e : BroadcastEvent) :
    (subscribeViaPlugin st c u cb).exportedManager = st.exportedManager ∧
    (subscribeViaExported st c u cb).pluginManager = st.pluginManager ∧
    broadcastViaExported (subscribeViaPlugin st c u cb) c u e
      = broadcastViaExported st c u e := by
  exact ⟨rfl, rfl, rfl⟩

/-- C6: the registry invariant — every key present in the map holds at
least one listener — is preserved by `subscribe`, by the unsubscribe
closure, by `clearChannel` and by `clearAll` (and `broadcast` does not
touch the map at all); under it, a key is listed in `getActiveChannels`
exactly when its listener count is non-zero; and unsubscribing the last
listener of a key removes the key from `getActiveChannels`. -/
theorem c6_key_present_iff_nonempty (m : BroadcastManager) (h : WF m)
    (c : String) (u : UserId) (k : String) (cb : Callback) :
    WF (subscribe m c u cb) ∧
    WF (unsubscribeKey m k cb) ∧
    WF (clearChannel m c u) ∧
    WF (clearAll m) ∧
    (getChannelKey c u ∈ getActiveChannels m ↔ getConnectionCount m c u ≠ 0) ∧
    (mapGet m.connections k = some [cb] →
      k ∉ getActiveChannels (unsubscribeKey m k cb)) := by
  refine ⟨WF_subscribe h c u cb, WF_unsubscribeKey h k cb, WF_clearChannel h c u,
    WF_clearAll m, ?_, fun hk => last_unsubscribe_removes_key hk⟩
  rw [active_iff_count_ne_zero h]
  unfold getConnectionCount
  simp [List.length_eq_zero, listenersOf]

/-- C6 witness: the invariant theorem applied to the concrete one-listener
registry obtained by subscribing listener 7 under ("test", 1). -/
theorem c6_key_present_iff_nonempty_witness :
    WF (subscribe emptyManager "test" (UserId.num 1) 7) ∧
    WF (subscribe (subscribe emptyManager "test" (UserId.num 1) 7) "a" (UserId.num 2) 8) :=
  ⟨by decide,
    (c6_key_present_iff_nonempty (subscribe emptyManager "test" (UserId.num 1) 7)
      (by decide) "a" (UserId.num 2) "test:1" 8).1⟩

/-- C7: the frame written for an event is exactly the text "data: "
followed by the JSON serialization of the object with fields type, html,
data, terminated by two newline characters; the serialized JSON payload
contains no raw newline (every control character of an embedded string is
escaped by the JSON encoding), so a multi-line `html` or `data` value
cannot break the one-event-per-blank-line framing. -/
theorem c7_frame_layout_and_no_raw_newline (e : BroadcastEvent) :
    encodeFrame e = "data: " ++ stringify (eventJson e) ++ "\n\n" ∧
    ((stringify (eventJson e)).data.all (fun c => c != '\n')) = true ∧
    (∀ h, e.html = some h → eventJson e
      = Json.obj [("type", Json.str e.type), ("html", Json.str h), ("data", e.data)]) := by
  refine ⟨rfl, ?_, fun h hh => by simp [eventJson, hh]⟩
  rw [List.all_eq_true]
  intro c hc
  have hge := stringifyVal_ge (eventJson e) c hc
  rw [bne_iff_ne]
  intro heq
  rw [heq] at hge
  exact absurd hge (by decide)

/-- C7 witness: the serialized object shape applied to a concrete event
with an html fragment present. -/
theorem c7_frame_layout_witness :
    (BroadcastEvent.mk "update" (Json.str "s") (some "h")).html = some "h" ∧
    eventJson ⟨"update", Json.str "s", some "h"⟩
      = Json.obj [("type", Json.str "update"), ("html", Json.str "h"), ("data", Json.str "s")] :=
  ⟨rfl, (c7_frame_layout_and_no_raw_newline ⟨"update", Json.str "s", some "h"⟩).2.2 "h" rfl⟩

/-- C8: the unsubscribe closure returned by `subscribe` is idempotent —
invoking it twice in succession yields the same registry state as invoking
it once (the source closure guards the absent key with `if` and `Set`
deletion of an absent element is a no-op, so the second invocation also
raises no error; the model's totality reflects that absence of an error
path). Holds for every registry whose listener containers are
duplicate-free, which JS `Set`s guarantee. -/
theorem c8_unsubscribe_idempotent (m : BroadcastManager) (h : SetInv m)
    (c : String) (u : UserId) (cb : Callback) :
    unsubscribe (unsubscribe m c u cb) c u cb = unsubscribe m c u cb :=
  unsubscribeKey_idem h (getChannelKey c u) cb

/-- C8 witness: idempotence at the concrete one-listener registry. -/
theorem c8_unsubscribe_idempotent_witness :
    SetInv (subscribe emptyManager "test" (UserId.num 1) 7) ∧
    unsubscribe (unsubscribe (subscribe emptyManager "test" (UserId.num 1) 7)
        "test" (UserId.num 1) 7) "test" (UserId.num 1) 7
      = unsubscribe (subscribe emptyManager "test" (UserId.num 1) 7)
        "test" (UserId.num 1) 7 :=
  ⟨by decide, c8_unsubscribe_idempotent (subscribe emptyManager "test" (UserId.num 1) 7)
    (by decide) "test" (UserId.num 1) 7⟩

/-- C9: a publish to a key invokes exactly the key's listeners, each once
with the published event, in the container's iteration order — and that
order is registration order: `subscribe` appends a new callback at the end
of the key's container and leaves the position of an already-registered
callback unchanged. (In the embedding, `broadcast` IS the synchronous
invocation sequence performed within the calling context.) -/
theorem c9_delivery_in_registration_order (m : BroadcastManager) (c : String)
    (u : UserId) (e : BroadcastEvent) (cb : Callback) :
    broadcast m c u e = (listenersOf m c u).map (fun x => (x, e)) ∧
    (cb ∉ listenersOf m c u →
      listenersOf (subscribe m c u cb) c u = listenersOf m c u ++ [cb]) ∧
    (cb ∈ listenersOf m c u →
      listenersOf (subscribe m c u cb) c u = listenersOf m c u) := by
  refine ⟨broadcast_eq_map m c u e, fun hn => ?_, fun hm => ?_⟩
  · rw [listenersOf_subscribe_self, setAdd_of_not_mem hn]
  · rw [listenersOf_subscribe_self]
    unfold setAdd
    simp [hm]

/-- C9 witness: registration order at a concrete registry — a fresh
callback lands at the end of the key's container. -/
theorem c9_delivery_in_registration_order_witness :
    (7 ∉ listenersOf emptyManager "t" (UserId.num 1)) ∧
    listenersOf (subscribe emptyManager "t" (UserId.num 1) 7) "t" (UserId.num 1)
      = listenersOf emptyManager "t" (UserId.num 1) ++ [7] :=
  ⟨by decide, (c9_delivery_in_registration_order emptyManager "t" (UserId.num 1)
    ⟨"x", Json.null, none⟩ 7).2.1 (by decide)⟩

/-- C10: numeric and string subscriber identities are unified by string
conversion in the key — `getChannelKey c (num n)` and
`getChannelKey c (str (decimal n))` are the same key, so after
`subscribe(c, n, cb)` on a key with no listeners, `countFor(c, String(n))`
is 1 and a publish addressed with the string identity invokes `cb`. -/
theorem c10_numeric_and_string_identity_agree (m : BroadcastManager)
    (c : String) (n : Nat) (cb : Callback) (e : BroadcastEvent) :
    getChannelKey c (UserId.num n) = getChannelKey c (UserId.str (natRepr n)) ∧
    (getConnectionCount m c (UserId.num n) = 0 →
      getConnectionCount (subscribe m c (UserId.num n) cb) c (UserId.str (natRepr n)) = 1) ∧
    (cb, e) ∈ broadcast (subscribe m c (UserId.num n) cb) c (UserId.str (natRepr n)) e := by
  refine ⟨rfl, fun h0 => ?_, ?_⟩
  · rw [show getConnectionCount (subscribe m c (UserId.num n) cb) c (UserId.str (natRepr n))
        = getConnectionCount (subscribe m c (UserId.num n) cb) c (UserId.num n) from rfl,
      getConnectionCount_eq, listenersOf_subscribe_self]
    rw [getConnectionCount_eq] at h0
    rw [List.length_eq_zero.mp h0]
    simp [setAdd]
  · rw [show broadcast (subscribe m c (UserId.num n) cb) c (UserId.str (natRepr n)) e
        = broadcast (subscribe m c (UserId.num n) cb) c (UserId.num n) e from rfl,
      broadcast_eq_map, listenersOf_subscribe_self]
    exact List.mem_map.mpr ⟨cb, setAdd_mem _ cb, rfl⟩

/-- C10 witness: identity unification at the concrete identity 5. -/
theorem c10_numeric_and_string_identity_agree_witness :
    (getConnectionCount emptyManager "t" (UserId.num 5) = 0) ∧
    getConnectionCount (subscribe emptyManager "t" (UserId.num 5) 7)
      "t" (UserId.str (natRepr 5)) = 1 :=
  ⟨by decide, (c10_numeric_and_string_identity_agree emptyManager "t" 5 7
    ⟨"x", Json.null, none⟩).2.1 (by decide)⟩
